import Mathlib

/-!
Shallow embedding of the nuvra-backend transaction ingestion and
aggregation core: the money normalizer, tenant resolver, transaction
store, aggregation queries and the password hashing helpers, together
with theorems settling the specification claims about them.
-/

namespace Nuvra

/-! ## Money normalizer (`api.py` `_amount_to_cents`)

A Python `Decimal` is an exact base-10 value `mant * 10 ^ (-exp)`;
`_amount_to_cents` multiplies by 100 and rounds to an integral value with
`ROUND_HALF_UP`, which rounds ties away from zero. -/

structure Dec where
  mant : ℤ
  exp : ℕ
deriving DecidableEq

def Dec.toRat (d : Dec) : ℚ := (d.mant : ℚ) / (10 : ℚ) ^ d.exp

/-- `Decimal.to_integral_value(rounding=ROUND_HALF_UP)`: nearest integer,
ties rounded away from zero. -/
def decimalRoundHalfUp (q : ℚ) : ℤ :=
  if 0 ≤ q then ⌊q + 1 / 2⌋ else -⌊-q + 1 / 2⌋

def amount_to_cents (p : Dec) : ℤ := decimalRoundHalfUp (p.toRat * 100)

/-- The rounding the spec describes in its own words: round-half-up to the
nearest integer (for the positive prices the endpoint accepts). -/
def spec_round_half_up (q : ℚ) : ℤ := ⌊q + 1 / 2⌋

/-! ## Data model (`db/models.py`)

`created_at` is a UTC timestamp modelled as seconds since the epoch. A
`status` read back from storage can be `NULL` on legacy rows, hence
`Option`; the insert path always writes a concrete value. -/

structure User where
  id : ℕ
  username : String
  password_hash : String
  api_key : String
deriving DecidableEq

structure Tx where
  transaction_id : String
  api_key : String
  customer_name : String
  customer_email : Option String
  amount_cents : ℤ
  currency : String
  status : Option String
  country : Option String
  city : Option String
  created_at : ℤ
deriving DecidableEq

structure DB where
  users : List User
  transactions : List Tx
deriving DecidableEq

/-! ## Read queries (`db/queries.py`)

Every query guards its tenant restriction with Python truthiness
(`if api_key:`): the filter is applied only when the key is present and
non-empty. -/

def tenantFilter (apiKey : Option String) (txs : List Tx) : List Tx :=
  match apiKey with
  | none => txs
  | some k => if k = "" then txs else txs.filter (fun t => t.api_key == k)

def get_user_by_api_key (users : List User) (token : String) : Option User :=
  users.find? (fun u => u.api_key == token)

def get_user_by_username (users : List User) (name : String) : Option User :=
  users.find? (fun u => u.username == name)

/-- Descending `created_at` ordering used by `ORDER BY created_at DESC`. -/
def byCreatedDesc (a b : Tx) : Prop := b.created_at ≤ a.created_at

instance : DecidableRel byCreatedDesc := fun a b =>
  inferInstanceAs (Decidable (b.created_at ≤ a.created_at))

instance : IsTotal Tx byCreatedDesc :=
  ⟨fun a b => le_total b.created_at a.created_at⟩

instance : IsTrans Tx byCreatedDesc :=
  ⟨fun _ _ _ hab hbc => le_trans hbc hab⟩

def get_recent_transactions (txs : List Tx) (limit : ℕ)
    (apiKey : Option String) : List Tx :=
  ((tenantFilter apiKey txs).insertionSort byCreatedDesc).take limit

structure Summary where
  total_volume_cents : ℤ
  total_transactions : ℕ
  unique_customers : ℕ
  average_ticket_cents : ℤ
  success_rate : ℚ
  latest_transaction_at : Option ℤ
deriving DecidableEq

/-- `get_summary`: the four aggregate statements, the truncated average
(`int(total / count)` truncates toward zero, `Int.tdiv`), the success
rate, and the latest `created_at` (`ORDER BY created_at DESC LIMIT 1`). -/
def get_summary (txs : List Tx) (apiKey : Option String) : Summary :=
  let rel := tenantFilter apiKey txs
  let total := (rel.map (fun t => t.amount_cents)).sum
  let count := rel.length
  { total_volume_cents := total
    total_transactions := count
    unique_customers := ((rel.map (fun t => t.customer_name)).dedup).length
    average_ticket_cents := if count ≠ 0 then Int.tdiv total (count : ℤ) else 0
    success_rate :=
      if count ≠ 0 then
        ((rel.filter (fun t => t.status == some "success")).length : ℚ) / (count : ℚ)
      else 0
    latest_transaction_at := (rel.map (fun t => t.created_at)).max? }

def secondsPerDay : ℤ := 86400

/-- `func.date` on a UTC timestamp: the calendar day, as days since the
epoch (floor division, matching `Int./` on a positive divisor). -/
def dayOf (t : ℤ) : ℤ := t / secondsPerDay

structure DayBucket where
  day : ℤ
  amount_cents : ℤ
  transactions : ℕ
deriving DecidableEq

/-- `get_daily_volume`: keep rows with `created_at >= now - (days-1) days`
(and the tenant restriction when truthy), group by calendar day, order by
day ascending. -/
def get_daily_volume (txs : List Tx) (days : ℕ) (apiKey : Option String)
    (now : ℤ) : List DayBucket :=
  let cutoff := now - ((days : ℤ) - 1) * secondsPerDay
  let rel := (tenantFilter apiKey txs).filter
    (fun t => decide (cutoff ≤ t.created_at))
  let ds := ((rel.map (fun t => dayOf t.created_at)).dedup).insertionSort (· ≤ ·)
  ds.map (fun d =>
    let dtx := rel.filter (fun t => dayOf t.created_at == d)
    { day := d
      amount_cents := (dtx.map (fun t => t.amount_cents)).sum
      transactions := dtx.length })

/-- `get_status_breakdown` as the count function its result dict denotes:
a `NULL` status is bucketed under `"unknown"`. -/
def get_status_breakdown (txs : List Tx) (apiKey : Option String) :
    String → ℕ := fun s =>
  ((tenantFilter apiKey txs).filter
    (fun t => t.status == some s || (t.status == none && s == "unknown"))).length

/-! ## Errors and the store insert path -/

inductive ApiError where
  | unauthorized
  | invalidAmount
  | duplicate
deriving DecidableEq

/-- `require_api_key`: look the bearer token up among the stored API keys;
401 when no tenant matches. The model returns the database alongside the
result to make explicit that the resolver never mutates state. -/
def require_api_key (db : DB) (token : String) : Except ApiError User × DB :=
  match get_user_by_api_key db.users token with
  | none => (Except.error ApiError.unauthorized, db)
  | some u => (Except.ok u, db)

/-- The store insert: `session.flush()` raises `IntegrityError` exactly
when the unique constraint on `transaction_id` is violated, and the
handler rolls the session back, leaving the stored rows unchanged. -/
def insertTransaction (txs : List Tx) (t : Tx) : Except ApiError Tx × List Tx :=
  if txs.any (fun t0 => t0.transaction_id == t.transaction_id) then
    (Except.error ApiError.duplicate, txs)
  else
    (Except.ok t, txs ++ [t])

/-! ## Ingestion endpoint (`api.py` `create_transaction`) -/

/-- A request body that already passed pydantic validation
(`TransactionCreate`): non-empty name, `price > 0`, 3-letter currency
(defaulted to `"USD"` when absent from the JSON). -/
structure Payload where
  name : String
  email : Option String
  price : Dec
  currency : String
  status : Option String
  country : Option String
  city : Option String
deriving DecidableEq

/-- ASCII-wise `str.upper()`. -/
def upperStr (s : String) : String := ⟨s.data.map Char.toUpper⟩

/-- ASCII-wise `str.lower()`. -/
def lowerStr (s : String) : String := ⟨s.data.map Char.toLower⟩

structure TxResponse where
  transaction_id : String
  created_at : ℤ
  amount_cents : ℤ
  currency : String
  status : String
  customer_name : String
  customer_email : Option String
  country : Option String
  city : Option String
deriving DecidableEq

/-- The `POST /transactions` handler: resolve the caller, normalize the
amount, default/uppercase the currency and default/lowercase the status
(both via Python `or`, i.e. falsy-aware), insert, and echo the persisted
record. `freshId` stands for the UUID generated at insertion and `now`
for the insertion timestamp. -/
def create_transaction (db : DB) (settingsCurrency : String) (token : String)
    (p : Payload) (freshId : String) (now : ℤ) :
    Except ApiError (TxResponse × DB) :=
  match (require_api_key db token).1 with
  | Except.error e => Except.error e
  | Except.ok user =>
    let amount := amount_to_cents p.price
    let curr := upperStr (if p.currency = "" then settingsCurrency else p.currency)
    let statusV := lowerStr (match p.status with
      | none => "success"
      | some s => if s = "" then "success" else s)
    let tx : Tx :=
      { transaction_id := freshId
        api_key := user.api_key
        customer_name := p.name
        customer_email := p.email
        amount_cents := amount
        currency := curr
        status := some statusV
        country := p.country
        city := p.city
        created_at := now }
    match insertTransaction db.transactions tx with
    | (Except.error e, _) => Except.error e
    | (Except.ok _, txs2) =>
      Except.ok
        ({ transaction_id := tx.transaction_id
           created_at := tx.created_at
           amount_cents := tx.amount_cents
           currency := tx.currency
           status := tx.status.getD ""
           customer_name := tx.customer_name
           customer_email := tx.customer_email
           country := tx.country
           city := tx.city },
         { users := db.users, transactions := txs2 })

/-! ## Password hashing (`auth.py`)

Strings are handled character-wise so the `split("$", 1)` of
`verify_password` can be modelled structurally; `H` abstracts the SHA-256
hex digest. -/

/-- `s.split(sep, 1)` when it succeeds: the part before the first `sep`
and everything after it; `none` when `sep` does not occur (in which case
the Python unpacking raises `ValueError`). -/
def splitOnce (sep : Char) : List Char → Option (List Char × List Char)
  | [] => none
  | c :: cs =>
    if c = sep then some ([], cs)
    else
      match splitOnce sep cs with
      | none => none
      | some (a, b) => some (c :: a, b)

def hashWithSalt (H : List Char → List Char) (value salt : List Char) :
    List Char := H (salt ++ ':' :: value)

def hash_password (H : List Char → List Char) (salt password : List Char) :
    List Char := salt ++ '$' :: hashWithSalt H password salt

def verify_password (H : List Char → List Char) (password stored : List Char) :
    Bool :=
  match splitOnce '$' stored with
  | none => false
  | some (salt, digest) => hashWithSalt H password salt == digest

/-! ## Filtered transaction listing -/

structure TxFilters where
  start_at : Option ℤ
  end_at : Option ℤ
  min_amount_cents : Option ℤ
  max_amount_cents : Option ℤ
  statuses : Option (List String)
deriving DecidableEq

def optLowerOk (o : Option ℤ) (x : ℤ) : Bool :=
  match o with
  | none => true
  | some v => decide (v ≤ x)

def optUpperOk (o : Option ℤ) (x : ℤ) : Bool :=
  match o with
  | none => true
  | some v => decide (x ≤ v)

def statusAllowed (o : Option (List String)) (st : Option String) : Bool :=
  match o with
  | none => true
  | some [] => true
  | some ss =>
    match st with
    | some s => ss.contains s
    | none => false

def txMatchesFilters (f : TxFilters) (t : Tx) : Bool :=
  optLowerOk f.start_at t.created_at && optUpperOk f.end_at t.created_at &&
    optLowerOk f.min_amount_cents t.amount_cents &&
    optUpperOk f.max_amount_cents t.amount_cents &&
    statusAllowed f.statuses t.status

/-- Modelled from the spec: `get_transactions_filtered` is imported by the
dashboard from `db.queries`, but its definition is not among the provided
source files. Following the spec, the filters are an inclusive date
range, an inclusive amount range in minor units, and a set of allowed
status values where an empty or absent set means no status filter; the
records are ordered descending by `created_at` and paged with
`limit`/`offset`, while the returned total counts the whole filtered
set. -/
def get_transactions_filtered (txs : List Tx) (apiKey : Option String)
    (f : TxFilters) (limit offset : ℕ) : List Tx × ℕ :=
  let rel := (tenantFilter apiKey txs).filter (txMatchesFilters f)
  let sortedRel := rel.insertionSort byCreatedDesc
  ((sortedRel.drop offset).take limit, rel.length)

end Nuvra

namespace Nuvra

/-! ## Money normalizer lemmas -/

lemma amount_to_cents_eq_floor (p : Dec) (hp : 0 < p.toRat) :
    amount_to_cents p = ⌊p.toRat * 100 + 1 / 2⌋ := by
  unfold amount_to_cents decimalRoundHalfUp
  rw [if_pos (by positivity)]

lemma amount_to_cents_1999 : amount_to_cents ⟨1999, 2⟩ = 1999 := by
  norm_num [amount_to_cents, decimalRoundHalfUp, Dec.toRat]

lemma amount_to_cents_half_cent : amount_to_cents ⟨5, 3⟩ = 1 := by
  norm_num [amount_to_cents, decimalRoundHalfUp, Dec.toRat]

end Nuvra

namespace Nuvra

/-- Claim C1: for every decimal price `p > 0` accepted by the ingestion
endpoint, the computed minor-unit amount equals round-half-up of
`p * 100`; in particular `19.99` yields `1999` cents and `0.005` yields
`1` cent; the computation is a pure function of the price. -/
theorem c1_money_normalizer (p : Dec) (hp : 0 < p.toRat) :
    amount_to_cents p = spec_round_half_up (p.toRat * 100) ∧
    amount_to_cents ⟨1999, 2⟩ = 1999 ∧ amount_to_cents ⟨5, 3⟩ = 1 := by
  refine ⟨?_, amount_to_cents_1999, amount_to_cents_half_cent⟩
  rw [amount_to_cents_eq_floor p hp, spec_round_half_up]

theorem c1_money_normalizer_witness :
    amount_to_cents ⟨1999, 2⟩ = spec_round_half_up ((Dec.mk 1999 2).toRat * 100) :=
  (c1_money_normalizer ⟨1999, 2⟩ (by norm_num [Dec.toRat])).1

/-- Claim C4 counterexample: the price `0.001` passes validation
(`price > 0`) yet normalizes to `0` minor units, so the stored
`amount_cents` is not strictly positive. -/
theorem c4_counterexample :
    0 < (Dec.mk 1 3).toRat ∧ amount_to_cents (Dec.mk 1 3) = 0 := by
  constructor
  · norm_num [Dec.toRat]
  · norm_num [amount_to_cents, decimalRoundHalfUp, Dec.toRat]

/-- Claim C4 (amended): every payload that passes validation
(`price > 0`) stores a nonnegative `amount_cents`, and the stored amount
is strictly positive whenever the price is at least `0.005` (i.e. at
least half of one minor unit). -/
theorem c4_amount_nonneg (p : Dec) (hp : 0 < p.toRat) :
    0 ≤ amount_to_cents p ∧
    ((1 : ℚ) / 200 ≤ p.toRat → 0 < amount_to_cents p) := by
  rw [amount_to_cents_eq_floor p hp]
  constructor
  · rw [Int.le_floor]
    push_cast
    nlinarith
  · intro hge
    have h1 : (1 : ℤ) ≤ ⌊p.toRat * 100 + 1 / 2⌋ := by
      rw [Int.le_floor]
      push_cast
      nlinarith
    omega

theorem c4_amount_nonneg_witness : 0 < amount_to_cents ⟨1999, 2⟩ :=
  (c4_amount_nonneg ⟨1999, 2⟩ (by norm_num [Dec.toRat])).2 (by norm_num [Dec.toRat])

end Nuvra

namespace Nuvra

/-- Claim C3: inserting a transaction whose `transaction_id` equals an
existing row's fails with the duplicate error (409), and the store's rows
— in particular the row count — are exactly as before: no partial row
persists. -/
theorem c3_duplicate_insert (txs : List Tx) (t : Tx)
    (h : ∃ t0 ∈ txs, t0.transaction_id = t.transaction_id) :
    insertTransaction txs t = (Except.error ApiError.duplicate, txs) ∧
    (insertTransaction txs t).2 = txs ∧
    (insertTransaction txs t).2.length = txs.length := by
  obtain ⟨t0, ht0, hid⟩ := h
  have hany : txs.any (fun t0 => t0.transaction_id == t.transaction_id) = true := by
    rw [List.any_eq_true]
    exact ⟨t0, ht0, by simp [hid]⟩
  unfold insertTransaction
  rw [if_pos hany]
  exact ⟨rfl, rfl, rfl⟩

/-- A transaction literal used by witnesses. -/
def sampleTx : Tx :=
  { transaction_id := "tid-1"
    api_key := "k1"
    customer_name := "Ada Lovelace"
    customer_email := none
    amount_cents := 1999
    currency := "USD"
    status := some "success"
    country := none
    city := none
    created_at := 1000000 }

/-- A second transaction, owned by another tenant. -/
def sampleTx2 : Tx :=
  { transaction_id := "tid-2"
    api_key := "k2"
    customer_name := "Grace Hopper"
    customer_email := none
    amount_cents := 500
    currency := "USD"
    status := some "failed"
    country := none
    city := none
    created_at := 2000000 }

theorem c3_duplicate_insert_witness :
    insertTransaction [sampleTx] { sampleTx with amount_cents := 42 } =
      (Except.error ApiError.duplicate, [sampleTx]) :=
  (c3_duplicate_insert [sampleTx] { sampleTx with amount_cents := 42 }
    ⟨sampleTx, by simp, rfl⟩).1

/-- Claim C10: when the tenant key passed to summary, daily volume, or
status breakdown is absent or the empty string (a Python-falsy value),
the tenant restriction is skipped and the aggregates are computed over
every tenant's transactions, not over an empty set. -/
theorem c10_falsy_tenant_global (txs : List Tx) (dys : ℕ) (now : ℤ) :
    get_summary txs (some "") = get_summary txs none ∧
    (get_summary txs (some "")).total_transactions = txs.length ∧
    (get_summary txs (some "")).total_volume_cents =
      (txs.map (fun t => t.amount_cents)).sum ∧
    get_daily_volume txs dys (some "") now = get_daily_volume txs dys none now ∧
    get_status_breakdown txs (some "") = get_status_breakdown txs none ∧
    tenantFilter (some "") txs = txs := by
  have hf : tenantFilter (some "") txs = txs := by
    simp [tenantFilter]
  have hn : tenantFilter none txs = txs := rfl
  refine ⟨?_, ?_, ?_, ?_, ?_, hf⟩
  · rw [get_summary, get_summary, hf, hn]
  · rw [get_summary, hf]
  · rw [get_summary, hf]
  · rw [get_daily_volume, get_daily_volume, hf, hn]
  · funext s
    rw [get_status_breakdown, get_status_breakdown, hf, hn]

end Nuvra

namespace Nuvra

/-- Claim C6: the summary's average ticket is the total volume divided by
the transaction count, truncated to an integer, and `0` when the count is
`0`; a tenant with no transactions gets the all-zero summary (volume `0`,
count `0`, average `0`, success rate `0`, no latest timestamp). -/
theorem c6_average_ticket (txs : List Tx) (key : Option String) (k : String) :
    ((get_summary txs key).total_transactions ≠ 0 →
      (get_summary txs key).average_ticket_cents =
        Int.tdiv (get_summary txs key).total_volume_cents
          ((get_summary txs key).total_transactions : ℤ)) ∧
    ((get_summary txs key).total_transactions = 0 →
      (get_summary txs key).average_ticket_cents = 0) ∧
    ((k ≠ "" ∧ ∀ t ∈ txs, t.api_key ≠ k) →
      get_summary txs (some k) =
        { total_volume_cents := 0
          total_transactions := 0
          unique_customers := 0
          average_ticket_cents := 0
          success_rate := 0
          latest_transaction_at := none }) := by
  refine ⟨?_, ?_, ?_⟩
  · intro hne
    simp only [get_summary] at hne ⊢
    rw [if_pos hne]
  · intro hz
    simp only [get_summary] at hz ⊢
    rw [if_neg (by simp [hz])]
  · rintro ⟨hk, hnone⟩
    have hrel : tenantFilter (some k) txs = [] := by
      rw [tenantFilter, if_neg hk, List.filter_eq_nil_iff]
      intro t ht
      simp [hnone t ht]
    rw [get_summary, hrel]
    rfl

theorem c6_average_ticket_witness :
    (get_summary [sampleTx, sampleTx2] none).average_ticket_cents =
      Int.tdiv (get_summary [sampleTx, sampleTx2] none).total_volume_cents
        ((get_summary [sampleTx, sampleTx2] none).total_transactions : ℤ) ∧
    get_summary [sampleTx, sampleTx2] (some "k3") =
      { total_volume_cents := 0
        total_transactions := 0
        unique_customers := 0
        average_ticket_cents := 0
        success_rate := 0
        latest_transaction_at := none } :=
  ⟨(c6_average_ticket [sampleTx, sampleTx2] none "k3").1 (by decide),
   (c6_average_ticket [sampleTx, sampleTx2] none "k3").2.2 ⟨by decide, by decide⟩⟩

end Nuvra

namespace Nuvra

lemma tenantFilter_some_ne (k : String) (hk : k ≠ "") (txs : List Tx) :
    tenantFilter (some k) txs = txs.filter (fun t => t.api_key == k) := by
  rw [tenantFilter, if_neg hk]

lemma filter_idem (txs : List Tx) (p : Tx → Bool) :
    (txs.filter p).filter p = txs.filter p := by
  simp [List.filter_filter]

/-- Claim C2: a bearer token matching no tenant's stored `api_key` makes
the resolver return the 401 error without touching the state; a token
matching tenant A scopes every subsequent read — recent transactions,
summary, daily volume, status breakdown — to A's rows alone, so no other
tenant's data is ever reflected in the results. -/
theorem c2_tenant_isolation (db : DB) (token : String) (limit dys : ℕ) (now : ℤ) :
    ((∀ u ∈ db.users, u.api_key ≠ token) →
      require_api_key db token = (Except.error ApiError.unauthorized, db)) ∧
    (∀ u : User, (require_api_key db token).1 = Except.ok u → token ≠ "" →
      u.api_key = token ∧
      (∀ t ∈ get_recent_transactions db.transactions limit (some token),
        t.api_key = token) ∧
      get_summary db.transactions (some token) =
        get_summary (db.transactions.filter (fun t => t.api_key == token))
          (some token) ∧
      get_daily_volume db.transactions dys (some token) now =
        get_daily_volume (db.transactions.filter (fun t => t.api_key == token))
          dys (some token) now ∧
      get_status_breakdown db.transactions (some token) =
        get_status_breakdown (db.transactions.filter (fun t => t.api_key == token))
          (some token)) := by
  constructor
  · intro hnone
    have hfind : get_user_by_api_key db.users token = none := by
      rw [get_user_by_api_key, List.find?_eq_none]
      intro u hu
      simp [hnone u hu]
    rw [require_api_key, hfind]
  · intro u hok hne
    have hkey : u.api_key = token := by
      rw [require_api_key] at hok
      cases hfind : get_user_by_api_key db.users token with
      | none => rw [hfind] at hok; exact absurd hok (by simp)
      | some v =>
        rw [hfind] at hok
        have hv : v = u := by simpa using hok
        have := List.find?_some hfind
        simpa [hv] using this
    refine ⟨hkey, ?_, ?_, ?_, ?_⟩
    · intro t ht
      have h1 : t ∈ (tenantFilter (some token) db.transactions).insertionSort
          byCreatedDesc := List.mem_of_mem_take ht
      have h2 : t ∈ tenantFilter (some token) db.transactions :=
        (List.perm_insertionSort byCreatedDesc _).mem_iff.mp h1
      rw [tenantFilter_some_ne token hne] at h2
      simpa using (List.mem_filter.mp h2).2
    · rw [get_summary, get_summary, tenantFilter_some_ne token hne,
        tenantFilter_some_ne token hne, filter_idem]
    · rw [get_daily_volume, get_daily_volume, tenantFilter_some_ne token hne,
        tenantFilter_some_ne token hne, filter_idem]
    · funext s
      rw [get_status_breakdown, get_status_breakdown,
        tenantFilter_some_ne token hne, tenantFilter_some_ne token hne,
        filter_idem]

/-- Tenants used by witnesses. -/
def sampleUser : User :=
  { id := 1, username := "alice", password_hash := "h1", api_key := "k1" }

def sampleUser2 : User :=
  { id := 2, username := "bob", password_hash := "h2", api_key := "k2" }

def sampleDB : DB :=
  { users := [sampleUser, sampleUser2], transactions := [sampleTx, sampleTx2] }

theorem c2_tenant_isolation_witness :
    require_api_key sampleDB "nope" =
      (Except.error ApiError.unauthorized, sampleDB) ∧
    get_summary sampleDB.transactions (some "k1") =
      get_summary (sampleDB.transactions.filter (fun t => t.api_key == "k1"))
        (some "k1") :=
  ⟨(c2_tenant_isolation sampleDB "nope" 20 14 0).1 (by decide),
   ((c2_tenant_isolation sampleDB "k1" 20 14 0).2 sampleUser rfl
     (by decide)).2.2.1⟩

end Nuvra

namespace Nuvra

/-- Claim C5: POSTing `{name: "Ada Lovelace", price: 19.99, currency:
"usd"}` with a valid token succeeds (201) with `amount_cents` 1999,
uppercased currency `"USD"`, defaulted lowercase status `"success"`, the
freshly generated id and the UTC insertion timestamp; the tenant's
summary afterwards reports 1 transaction, 1999 cents of volume and a
success rate of 1. -/
theorem c5_end_to_end (uid : ℕ) (uname pw k fid : String) (now : ℤ)
    (hk : k ≠ "") :
    create_transaction
        { users := [{ id := uid, username := uname, password_hash := pw,
                      api_key := k }],
          transactions := [] }
        "USD" k
        { name := "Ada Lovelace", email := none, price := ⟨1999, 2⟩,
          currency := "usd", status := none, country := none, city := none }
        fid now =
      Except.ok
        ({ transaction_id := fid, created_at := now, amount_cents := 1999,
           currency := "USD", status := "success",
           customer_name := "Ada Lovelace", customer_email := none,
           country := none, city := none },
         ⟨[⟨uid, uname, pw, k⟩],
          [⟨fid, k, "Ada Lovelace", none, 1999, "USD", some "success", none,
            none, now⟩]⟩) ∧
    (get_summary
        [⟨fid, k, "Ada Lovelace", none, 1999, "USD", some "success", none,
          none, now⟩] (some k)).total_transactions = 1 ∧
    (get_summary
        [⟨fid, k, "Ada Lovelace", none, 1999, "USD", some "success", none,
          none, now⟩] (some k)).total_volume_cents = 1999 ∧
    (get_summary
        [⟨fid, k, "Ada Lovelace", none, 1999, "USD", some "success", none,
          none, now⟩] (some k)).success_rate = 1 := by
  have hfind : get_user_by_api_key
      [{ id := uid, username := uname, password_hash := pw, api_key := k }] k =
      some { id := uid, username := uname, password_hash := pw, api_key := k } := by
    simp [get_user_by_api_key, List.find?]
  refine ⟨?_, ?_, ?_, ?_⟩
  · rw [create_transaction, require_api_key, hfind]
    simp only [amount_to_cents_1999]
    rw [if_neg (by decide)]
    have hupper : upperStr "usd" = "USD" := by decide
    have hlower : lowerStr "success" = "success" := by decide
    simp [insertTransaction, hupper, hlower]
  · rw [get_summary, tenantFilter_some_ne k hk]
    simp
  · rw [get_summary, tenantFilter_some_ne k hk]
    simp
  · rw [get_summary, tenantFilter_some_ne k hk]
    simp

theorem c5_end_to_end_witness :
    create_transaction
        { users := [{ id := 1, username := "alice", password_hash := "h1",
                      api_key := "k1" }],
          transactions := [] }
        "USD" "k1"
        { name := "Ada Lovelace", email := none, price := ⟨1999, 2⟩,
          currency := "usd", status := none, country := none, city := none }
        "tid-9" 777 =
      Except.ok
        ({ transaction_id := "tid-9", created_at := 777,
           amount_cents := 1999, currency := "USD", status := "success",
           customer_name := "Ada Lovelace", customer_email := none,
           country := none, city := none },
         ⟨[⟨1, "alice", "h1", "k1"⟩],
          [⟨"tid-9", "k1", "Ada Lovelace", none, 1999, "USD", some "success",
            none, none, 777⟩]⟩) ∧
    (get_summary
        [⟨"tid-9", "k1", "Ada Lovelace", none, 1999, "USD", some "success",
          none, none, 777⟩] (some "k1")).success_rate = 1 :=
  ⟨(c5_end_to_end 1 "alice" "h1" "k1" "tid-9" 777 (by decide)).1,
   (c5_end_to_end 1 "alice" "h1" "k1" "tid-9" 777 (by decide)).2.2.2⟩

end Nuvra

namespace Nuvra

lemma splitOnce_some_shape (sep : Char) (s a b : List Char)
    (h : splitOnce sep s = some (a, b)) : s = a ++ sep :: b ∧ sep ∉ a := by
  induction s generalizing a with
  | nil => simp [splitOnce] at h
  | cons c cs ih =>
    rw [splitOnce] at h
    by_cases hc : c = sep
    · rw [if_pos hc] at h
      obtain ⟨ha, hb⟩ := Prod.mk.injEq .. ▸ (Option.some.injEq .. ▸ h)
      subst hc
      simp [← ha, ← hb]
    · rw [if_neg hc] at h
      cases hrec : splitOnce sep cs with
      | none => rw [hrec] at h; exact absurd h (by simp)
      | some p =>
        obtain ⟨a0, b0⟩ := p
        rw [hrec] at h
        have h2 : some (c :: a0, b0) = some (a, b) := h
        have h3 := Option.some.inj h2
        have ha : c :: a0 = a := congrArg Prod.fst h3
        have hb : b0 = b := congrArg Prod.snd h3
        obtain ⟨hs, hnot⟩ := ih a0 (hb ▸ hrec)
        constructor
        · rw [← ha, hs]
          simp
        · rw [← ha]
          intro hmem
          rcases List.mem_cons.mp hmem with h1 | h1
          · exact hc h1.symm
          · exact hnot h1

lemma splitOnce_of_no_sep (sep : Char) (a b : List Char) (ha : sep ∉ a) :
    splitOnce sep (a ++ sep :: b) = some (a, b) := by
  induction a with
  | nil => simp [splitOnce]
  | cons c cs ih =>
    have hc : c ≠ sep := fun h => ha (h ▸ List.mem_cons_self c cs)
    have hcs : sep ∉ cs := fun h => ha (List.mem_cons_of_mem c h)
    rw [List.cons_append, splitOnce, if_neg (fun h => hc h), ih hcs]

/-- Claim C9: password verification accepts exactly the stored values of
the form `salt$H(salt:password)` where the salt is the part before the
first `$`; verifying a password against its own `hash_password` output
succeeds (for any salt without `$`, as produced by `token_hex`); a stored
value with no `$` separator, or with a mismatched digest, is rejected. -/
theorem c9_password_verification (H : List Char → List Char)
    (password stored salt : List Char) (hsalt : '$' ∉ salt) :
    (verify_password H password stored = true ↔
      ∃ sa : List Char, '$' ∉ sa ∧
        stored = sa ++ '$' :: hashWithSalt H password sa) ∧
    verify_password H password (hash_password H salt password) = true ∧
    (splitOnce '$' stored = none → verify_password H password stored = false) ∧
    (∀ sa db : List Char, splitOnce '$' stored = some (sa, db) →
      db ≠ hashWithSalt H password sa →
      verify_password H password stored = false) := by
  refine ⟨⟨?_, ?_⟩, ?_, ?_, ?_⟩
  · intro hv
    rw [verify_password] at hv
    cases hsplit : splitOnce '$' stored with
    | none => rw [hsplit] at hv; exact absurd hv (by simp)
    | some p =>
      obtain ⟨sa, db⟩ := p
      rw [hsplit] at hv
      have hdb : hashWithSalt H password sa = db := by simpa using hv
      obtain ⟨hs, hnot⟩ := splitOnce_some_shape '$' stored sa db hsplit
      exact ⟨sa, hnot, by rw [hs, hdb]⟩
  · rintro ⟨sa, hnot, hs⟩
    rw [verify_password, hs, splitOnce_of_no_sep '$' sa _ hnot]
    simp
  · rw [verify_password, hash_password,
      splitOnce_of_no_sep '$' salt _ hsalt]
    simp [hashWithSalt]
  · intro hnone
    rw [verify_password, hnone]
  · intro sa db hsplit hne
    rw [verify_password, hsplit]
    simpa using Ne.symm hne

theorem c9_password_verification_witness :
    verify_password (fun l => l.reverse) ['p', 'w']
      (hash_password (fun l => l.reverse) ['a', 'b'] ['p', 'w']) = true :=
  (c9_password_verification (fun l => l.reverse) ['p', 'w']
    [] ['a', 'b'] (by decide)).2.1

end Nuvra

namespace Nuvra

lemma tenantFilter_subset (key : Option String) (txs : List Tx) :
    ∀ t ∈ tenantFilter key txs, t ∈ txs := by
  intro t ht
  cases key with
  | none => exact ht
  | some k =>
    simp only [tenantFilter] at ht
    split at ht
    · exact ht
    · exact (List.mem_filter.mp ht).1

lemma dayOf_sub_13 (now : ℤ) :
    dayOf (now - 13 * secondsPerDay) = dayOf now - 13 := by
  rw [dayOf, dayOf]
  have h : now - 13 * secondsPerDay = now + (-13) * secondsPerDay := by ring
  rw [h, Int.add_mul_ediv_right _ _ (by norm_num [secondsPerDay])]
  ring

lemma dayOf_mono {a b : ℤ} (h : a ≤ b) : dayOf a ≤ dayOf b := by
  rw [dayOf, dayOf]
  exact Int.ediv_le_ediv (by norm_num [secondsPerDay]) h

/-- Claim C7: with a 14-day window, every bucket of the daily volume lies
in the UTC calendar range `[today-13, today]` (given that every stored
row was created no later than the query time), the buckets are ordered
ascending by day, only days that actually have transactions appear, and
every in-window transaction of the tenant is covered by a bucket for its
day. -/
theorem c7_daily_window (txs : List Tx) (key : Option String) (now : ℤ)
    (hpast : ∀ t ∈ txs, t.created_at ≤ now) :
    (∀ b ∈ get_daily_volume txs 14 key now,
      dayOf now - 13 ≤ b.day ∧ b.day ≤ dayOf now ∧ 0 < b.transactions) ∧
    ((get_daily_volume txs 14 key now).map (fun b => b.day)).Sorted (· ≤ ·) ∧
    (∀ t ∈ tenantFilter key txs, now - 13 * secondsPerDay ≤ t.created_at →
      ∃ b ∈ get_daily_volume txs 14 key now, b.day = dayOf t.created_at) := by
  have hcut : now - (((14 : ℕ) : ℤ) - 1) * secondsPerDay =
      now - 13 * secondsPerDay := by norm_num
  simp only [get_daily_volume, hcut]
  set rel := (tenantFilter key txs).filter
    (fun t => decide (now - 13 * secondsPerDay ≤ t.created_at)) with hrel
  set ds := ((rel.map (fun t => dayOf t.created_at)).dedup).insertionSort
    (· ≤ ·) with hds
  have hmemrel : ∀ t ∈ rel, t ∈ txs ∧ now - 13 * secondsPerDay ≤ t.created_at := by
    intro t ht
    rw [hrel, List.mem_filter] at ht
    exact ⟨tenantFilter_subset key txs t ht.1, by simpa using ht.2⟩
  have hmemds : ∀ d ∈ ds, ∃ t ∈ rel, dayOf t.created_at = d := by
    intro d hd
    rw [hds] at hd
    have hd2 : d ∈ (rel.map (fun t => dayOf t.created_at)).dedup :=
      (List.perm_insertionSort _ _).mem_iff.mp hd
    have hd3 : d ∈ rel.map (fun t => dayOf t.created_at) :=
      List.mem_dedup.mp hd2
    exact List.mem_map.mp hd3
  refine ⟨?_, ?_, ?_⟩
  · intro b hb
    obtain ⟨d, hd, hbd⟩ := List.mem_map.mp hb
    obtain ⟨t, htrel, htd⟩ := hmemds d hd
    obtain ⟨htx, hcl⟩ := hmemrel t htrel
    have hday : b.day = d := by rw [← hbd]
    refine ⟨?_, ?_, ?_⟩
    · rw [hday, ← htd, ← dayOf_sub_13 now]
      exact dayOf_mono hcl
    · rw [hday, ← htd]
      exact dayOf_mono (hpast t htx)
    · rw [← hbd]
      have htd2 : t ∈ rel.filter (fun t0 => dayOf t0.created_at == d) := by
        rw [List.mem_filter]
        exact ⟨htrel, by simpa using htd⟩
      simpa using List.length_pos.mpr (List.ne_nil_of_mem htd2)
  · have hmap : (ds.map (fun d =>
        let dtx := rel.filter (fun t => dayOf t.created_at == d)
        (⟨d, (dtx.map (fun t => t.amount_cents)).sum, dtx.length⟩ :
          DayBucket))).map (fun b => b.day) = ds := by
      rw [List.map_map]
      exact List.map_id' ds
    rw [hmap, hds]
    exact List.sorted_insertionSort _ _
  · intro t ht hcl
    have htrel : t ∈ rel := by
      rw [hrel, List.mem_filter]
      exact ⟨ht, by simpa using hcl⟩
    have hd : dayOf t.created_at ∈ ds := by
      rw [hds]
      exact (List.perm_insertionSort _ _).mem_iff.mpr
        (List.mem_dedup.mpr (List.mem_map_of_mem _ htrel))
    refine ⟨_, List.mem_map_of_mem _ hd, rfl⟩

end Nuvra

namespace Nuvra

theorem c7_daily_window_witness :
    dayOf 2000000 - 13 ≤ (⟨11, 1999, 1⟩ : DayBucket).day ∧
    (⟨11, 1999, 1⟩ : DayBucket).day ≤ dayOf 2000000 ∧
    0 < (⟨11, 1999, 1⟩ : DayBucket).transactions :=
  (c7_daily_window [sampleTx, sampleTx2] none 2000000 (by decide)).1
    ⟨11, 1999, 1⟩ (by decide)

end Nuvra

namespace Nuvra

/-- Claim C8: the filtered tenant listing applies the date range and the
amount range inclusively, treats an empty or absent status set as no
status filter, orders records descending by `created_at`, and returns a
total that counts the whole filtered set independently of the requested
page. -/
theorem c8_filtered_query (txs : List Tx) (key : Option String)
    (f : TxFilters) (limit offset : ℕ) :
    (∀ t ∈ (get_transactions_filtered txs key f limit offset).1,
      (∀ s, f.start_at = some s → s ≤ t.created_at) ∧
      (∀ e, f.end_at = some e → t.created_at ≤ e) ∧
      (∀ m, f.min_amount_cents = some m → m ≤ t.amount_cents) ∧
      (∀ m, f.max_amount_cents = some m → t.amount_cents ≤ m)) ∧
    get_transactions_filtered txs key { f with statuses := some [] } limit
        offset =
      get_transactions_filtered txs key { f with statuses := none } limit
        offset ∧
    ((get_transactions_filtered txs key f limit offset).1.map
      (fun t => t.created_at)).Sorted (fun a b => b ≤ a) ∧
    (get_transactions_filtered txs key f limit offset).2 =
      ((tenantFilter key txs).filter (txMatchesFilters f)).length ∧
    (∀ l2 o2 : ℕ, (get_transactions_filtered txs key f limit offset).2 =
      (get_transactions_filtered txs key f l2 o2).2) := by
  refine ⟨?_, ?_, ?_, rfl, fun l2 o2 => rfl⟩
  · intro t ht
    have h1 : t ∈ (((tenantFilter key txs).filter
        (txMatchesFilters f)).insertionSort byCreatedDesc) :=
      List.mem_of_mem_drop (List.mem_of_mem_take ht)
    have h2 : t ∈ (tenantFilter key txs).filter (txMatchesFilters f) :=
      (List.perm_insertionSort _ _).mem_iff.mp h1
    have hmatch : txMatchesFilters f t = true := (List.mem_filter.mp h2).2
    rw [txMatchesFilters] at hmatch
    simp only [Bool.and_eq_true] at hmatch
    obtain ⟨⟨⟨⟨hstart, hend⟩, hmin⟩, hmax⟩, -⟩ := hmatch
    refine ⟨?_, ?_, ?_, ?_⟩
    · intro s hs
      rw [hs, optLowerOk] at hstart
      simpa using hstart
    · intro e he
      rw [he, optUpperOk] at hend
      simpa using hend
    · intro m hm
      rw [hm, optLowerOk] at hmin
      simpa using hmin
    · intro m hm
      rw [hm, optUpperOk] at hmax
      simpa using hmax
  · have hfun : txMatchesFilters { f with statuses := some [] } =
        txMatchesFilters { f with statuses := none } := by
      funext t
      simp [txMatchesFilters, statusAllowed]
    rw [get_transactions_filtered, get_transactions_filtered, hfun]
  · have hs : (((tenantFilter key txs).filter
        (txMatchesFilters f)).insertionSort byCreatedDesc).Sorted
        byCreatedDesc := List.sorted_insertionSort _ _
    have hsub : List.Sublist
        (get_transactions_filtered txs key f limit offset).1
        (((tenantFilter key txs).filter
          (txMatchesFilters f)).insertionSort byCreatedDesc) :=
      (List.take_sublist _ _).trans (List.drop_sublist _ _)
    exact List.pairwise_map.mpr (hs.sublist hsub)

theorem c8_filtered_query_witness :
    ((5 : ℤ) ≤ sampleTx2.created_at ∧ sampleTx2.created_at ≤ (3000000 : ℤ)) ∧
    (get_transactions_filtered [sampleTx, sampleTx2] none
        ⟨some 5, some 3000000, none, none, none⟩ 10 0).2 =
      (get_transactions_filtered [sampleTx, sampleTx2] none
        ⟨some 5, some 3000000, none, none, none⟩ 1 1).2 :=
  ⟨⟨((c8_filtered_query [sampleTx, sampleTx2] none
        ⟨some 5, some 3000000, none, none, none⟩ 10 0).1 sampleTx2
        (by decide)).1 5 rfl,
    ((c8_filtered_query [sampleTx, sampleTx2] none
        ⟨some 5, some 3000000, none, none, none⟩ 10 0).1 sampleTx2
        (by decide)).2.1 3000000 rfl⟩,
   (c8_filtered_query [sampleTx, sampleTx2] none
      ⟨some 5, some 3000000, none, none, none⟩ 10 0).2.2.2.2 1 1⟩

end Nuvra
